import Mathlib

/-!
# doomgeneric_emacs.c : the Emacs host backend of doomgeneric

A shallow embedding of `src/doomgeneric/doomgeneric_emacs.c`.

* The adapter's file-scope statics (`Qnil`, ..., `Qdoom_title`, `env`) are fields of `World`.
* The host (Emacs) is a record `Host σ` of the services reached through `env->...`, acting on a
  host state `σ`; every service call is also appended to `World.trace`.
* The engine (doomgeneric.c, not part of this file) is a record `Engine τ` of callback programs.
* C integers are `Int`/`Nat` with explicit wrap-around at the conversions the source performs.

Assumptions of the embedding: a 64-bit target with two's complement conversions; host
services return, do not write the memory the adapter copies into, and do not call back into
the adapter while it runs; engine entry points return.
-/

namespace DoomEmacs

/-! ## Machine integers -/

/-- The conversion `(int)x` of an `intmax_t`: reduction modulo 2^32 into `[-2^31, 2^31)`
(the behaviour of gcc and clang for out-of-range values). -/
def toInt32 (v : Int) : Int := (v + 2147483648) % 4294967296 - 2147483648

/-- The conversion `(uint32_t)x`: reduction modulo 2^32. -/
def toUInt32 (v : Int) : Nat := (v % 4294967296).toNat

/-- The conversion to `unsigned char`: reduction modulo 2^8. -/
def toUInt8 (v : Int) : Nat := (v % 256).toNat

/-- The conversion `(size_t)x` of a `ptrdiff_t` on a 64-bit target: reduction modulo 2^64. -/
def toSizeT (v : Int) : Nat := (v % 18446744073709551616).toNat

/-! ## Host side -/

/-- An `emacs_value`: an opaque host handle (a pointer); `0` is the null pointer. -/
abbrev emacs_value := Nat

/-- An `emacs_env *`: the address of a host services record; `0` is the null pointer. -/
abbrev emacs_env_ptr := Nat

/-- The fields of `struct emacs_runtime` the adapter reads. `size` is a `ptrdiff_t`
(emacs-module.h), which is why the source converts it with `(size_t)`. -/
structure emacs_runtime where
  size : Int

/-- Compile-time constants that come from headers outside this file:
`sizeof (struct emacs_runtime)`, `sizeof (emacs_env)` (emacs-module.h) and the frame
geometry `DOOMGENERIC_RESX`, `DOOMGENERIC_RESY` (doomgeneric.h). The geometry constants are
`int`s whose product `4 * RESX * RESY` is assumed to fit an `int`, as C requires. -/
structure Consts where
  sizeof_emacs_runtime : Nat
  sizeof_emacs_env : Nat
  DOOMGENERIC_RESX : Nat
  DOOMGENERIC_RESY : Nat

/-- The host services the adapter calls. Each service receives the `emacs_env *` it is called
through (the first argument of every `env->f (env, ...)`) and the host state.
`make_float` receives the `uint32_t` operand `x` of the double `x * 0.001`.
`canvas_pixel` returns the address of the surface buffer, `0` for a null pointer. -/
structure Host (σ : Type) where
  get_environment : emacs_runtime → σ → emacs_env_ptr × σ
  env_size : emacs_env_ptr → σ → Int
  intern : emacs_env_ptr → String → σ → emacs_value × σ
  make_global_ref : emacs_env_ptr → emacs_value → σ → emacs_value × σ
  funcall : emacs_env_ptr → emacs_value → List emacs_value → σ → emacs_value × σ
  make_function : emacs_env_ptr → Int → Int → σ → emacs_value × σ
  make_string : emacs_env_ptr → String → Nat → σ → emacs_value × σ
  make_float : emacs_env_ptr → Nat → σ → emacs_value × σ
  extract_integer : emacs_env_ptr → emacs_value → σ → Int × σ
  is_not_nil : emacs_env_ptr → emacs_value → σ → Bool × σ
  canvas_pixel : emacs_env_ptr → emacs_value → σ → Nat × σ
  canvas_refresh : emacs_env_ptr → emacs_value → σ → σ

/-- One entry of the call trace: a host service call (with the `emacs_env *` it went through)
or a call into the engine (with the value of the static `env` at that moment). -/
inductive Event where
  | get_environment
  | intern (e : emacs_env_ptr) (name : String)
  | make_global_ref (e : emacs_env_ptr) (v : emacs_value)
  | funcall (e : emacs_env_ptr) (f : emacs_value) (args : List emacs_value)
  | make_function (e : emacs_env_ptr) (min_arity max_arity : Int)
  | make_string (e : emacs_env_ptr) (s : String) (len : Nat)
  | make_float (e : emacs_env_ptr) (millis : Nat)
  | extract_integer (e : emacs_env_ptr) (v : emacs_value)
  | is_not_nil (e : emacs_env_ptr) (v : emacs_value)
  | canvas_pixel (e : emacs_env_ptr) (v : emacs_value)
  | canvas_refresh (e : emacs_env_ptr) (v : emacs_value)
  | doomgeneric_Create (e : emacs_env_ptr)
  | doomgeneric_Tick (e : emacs_env_ptr)
  deriving DecidableEq

/-! ## The world: adapter statics, engine buffer, host memory -/

/-- The whole state the adapter runs in.
* `Qnil` ... `Qdoom_title`, `env`: the adapter's statics (lines 27-29).
* `DG_ScreenBuffer`: the engine's frame buffer, as a map from byte offset to byte.
* `mem`: host memory, byte-addressed; the surface buffer lives here. Host services do not
  write it while the adapter runs, and it does not overlap `DG_ScreenBuffer`.
* `host`, `engine`: the private states of the two collaborators.
* `trace`: the calls made so far. -/
structure World (σ τ : Type) where
  Qnil : emacs_value
  Qaccept_process_output : emacs_value
  Qdoom_key : emacs_value
  Qdoom_ms : emacs_value
  Qdoom_canvas : emacs_value
  Qdoom_title : emacs_value
  env : emacs_env_ptr
  DG_ScreenBuffer : Nat → Nat
  mem : Nat → Nat
  host : σ
  engine : τ
  trace : List Event

/-- The state at program start: C zero-initialises the statics. -/
def World.initial {σ τ : Type} (host : σ) (engine : τ) (screen mem : Nat → Nat) : World σ τ :=
  { Qnil := 0, Qaccept_process_output := 0, Qdoom_key := 0, Qdoom_ms := 0, Qdoom_canvas := 0,
    Qdoom_title := 0, env := 0, DG_ScreenBuffer := screen, mem := mem, host := host,
    engine := engine, trace := [] }

/-- The symbol table, in the order the statics are assigned by `emacs_module_init`. -/
def World.symbols {σ τ : Type} (w : World σ τ) : List emacs_value :=
  [w.Qnil, w.Qaccept_process_output, w.Qdoom_ms, w.Qdoom_canvas, w.Qdoom_key, w.Qdoom_title]

section Calls

variable {σ τ : Type}

/-- `env->intern (env, name)`. -/
def env_intern (h : Host σ) (name : String) (w : World σ τ) : emacs_value × World σ τ :=
  let r := h.intern w.env name w.host
  (r.1, { w with host := r.2, trace := w.trace ++ [Event.intern w.env name] })

/-- `env->make_global_ref (env, v)`. -/
def env_make_global_ref (h : Host σ) (v : emacs_value) (w : World σ τ) :
    emacs_value × World σ τ :=
  let r := h.make_global_ref w.env v w.host
  (r.1, { w with host := r.2, trace := w.trace ++ [Event.make_global_ref w.env v] })

/-- `env->funcall (env, f, nargs, args)`. -/
def env_funcall (h : Host σ) (f : emacs_value) (args : List emacs_value) (w : World σ τ) :
    emacs_value × World σ τ :=
  let r := h.funcall w.env f args w.host
  (r.1, { w with host := r.2, trace := w.trace ++ [Event.funcall w.env f args] })

/-- `env->make_function (env, min, max, tick, 0, 0)`. -/
def env_make_function (h : Host σ) (min_arity max_arity : Int) (w : World σ τ) :
    emacs_value × World σ τ :=
  let r := h.make_function w.env min_arity max_arity w.host
  (r.1, { w with host := r.2,
                 trace := w.trace ++ [Event.make_function w.env min_arity max_arity] })

/-- `env->make_string (env, s, len)`. -/
def env_make_string (h : Host σ) (s : String) (len : Nat) (w : World σ τ) :
    emacs_value × World σ τ :=
  let r := h.make_string w.env s len w.host
  (r.1, { w with host := r.2, trace := w.trace ++ [Event.make_string w.env s len] })

/-- `env->make_float (env, x * 0.001)`, with `x` the `uint32_t` operand. -/
def env_make_float (h : Host σ) (x : Nat) (w : World σ τ) : emacs_value × World σ τ :=
  let r := h.make_float w.env x w.host
  (r.1, { w with host := r.2, trace := w.trace ++ [Event.make_float w.env x] })

/-- `env->extract_integer (env, v)`. -/
def env_extract_integer (h : Host σ) (v : emacs_value) (w : World σ τ) : Int × World σ τ :=
  let r := h.extract_integer w.env v w.host
  (r.1, { w with host := r.2, trace := w.trace ++ [Event.extract_integer w.env v] })

/-- `env->is_not_nil (env, v)`. -/
def env_is_not_nil (h : Host σ) (v : emacs_value) (w : World σ τ) : Bool × World σ τ :=
  let r := h.is_not_nil w.env v w.host
  (r.1, { w with host := r.2, trace := w.trace ++ [Event.is_not_nil w.env v] })

/-- `env->canvas_pixel (env, v)`. -/
def env_canvas_pixel (h : Host σ) (v : emacs_value) (w : World σ τ) : Nat × World σ τ :=
  let r := h.canvas_pixel w.env v w.host
  (r.1, { w with host := r.2, trace := w.trace ++ [Event.canvas_pixel w.env v] })

/-- `env->canvas_refresh (env, v)`. -/
def env_canvas_refresh (h : Host σ) (v : emacs_value) (w : World σ τ) : World σ τ :=
  { w with host := h.canvas_refresh w.env v w.host,
           trace := w.trace ++ [Event.canvas_refresh w.env v] }

/-- `memcpy (dst, src, n)` into byte-addressed memory, `src` given by byte offset. -/
def memcpy (dst : Nat) (src : Nat → Nat) (n : Nat) (mem : Nat → Nat) : Nat → Nat :=
  fun a => if dst ≤ a ∧ a < dst + n then src (a - dst) else mem a

/-! ## The adapter (lines 32-67) -/

/-- `DG_Init` (line 32): empty body. -/
def DG_Init (w : World σ τ) : World σ τ := w

/-- `DG_SetWindowTitle` (line 35); `strlen (x)` is the byte length of `x`. -/
def DG_SetWindowTitle (h : Host σ) (x : String) (w : World σ τ) : World σ τ :=
  let s := env_make_string h x x.utf8ByteSize w
  (env_funcall h s.2.Qdoom_title [s.1] s.2).2

/-- `DG_SleepMs` (line 40); the parameter is a `uint32_t`. -/
def DG_SleepMs (h : Host σ) (x : Nat) (w : World σ τ) : World σ τ :=
  let f := env_make_float h (x % 4294967296) w
  (env_funcall h f.2.Qaccept_process_output [f.2.Qnil, f.1] f.2).2

/-- `DG_GetTicksMs` (line 45). -/
def DG_GetTicksMs (h : Host σ) (w : World σ τ) : Nat × World σ τ :=
  let r := env_funcall h w.Qdoom_ms [] w
  let v := env_extract_integer h r.1 r.2
  (toUInt32 v.1, v.2)

/-- `DG_DrawFrame` (line 49). -/
def DG_DrawFrame (h : Host σ) (c : Consts) (w : World σ τ) : World σ τ :=
  let canvas := env_funcall h w.Qdoom_canvas [] w
  let nn := env_is_not_nil h canvas.1 canvas.2
  let buf := if nn.1 then env_canvas_pixel h canvas.1 nn.2 else (0, nn.2)
  if buf.1 ≠ 0 then
    env_canvas_refresh h canvas.1
      { buf.2 with mem := memcpy buf.1 buf.2.DG_ScreenBuffer
                            (4 * c.DOOMGENERIC_RESX * c.DOOMGENERIC_RESY) buf.2.mem }
  else
    buf.2

/-- What `DG_GetKey` hands back: its return value and the two out-parameters. -/
structure KeyResult where
  ret : Int
  pressed : Int
  key : Nat
  deriving DecidableEq

/-- `DG_GetKey` (line 58). `i & 255` is `Int.land`, `i >> 8` the arithmetic shift. -/
def DG_GetKey (h : Host σ) (w : World σ τ) : KeyResult × World σ τ :=
  let r := env_funcall h w.Qdoom_key [] w
  let v := env_extract_integer h r.1 r.2
  let i := toInt32 v.1
  ({ ret := if i ≠ 0 then 1 else 0,
     pressed := Int.shiftRight i 8,
     key := toUInt8 (Int.land i 255) }, v.2)

/-- `sym` (line 65). -/
def sym (h : Host σ) (name : String) (w : World σ τ) : emacs_value × World σ τ :=
  let i := env_intern h name w
  env_make_global_ref h i.1 i.2

end Calls

/-! ## The engine (doomgeneric.c), as far as the adapter meets it -/

/-- Modelled from the spec: the engine, whose source (`doomgeneric_Create`, `doomgeneric_Tick`)
is outside this file, is "an external collaborator exposing a fixed contract" that
"synchronously calls back into the adapter's host-callback functions (title set, sleep,
get-ticks, draw-frame, get-key)" and owns the frame buffer. One run of an engine entry point
is a tree of such callbacks, each continuation receiving what the callback returned; `render`
is the engine writing its own frame buffer, `ret` its return with a new private state. -/
inductive Prog (τ : Type) where
  | ret (t : τ)
  | DG_Init (k : Prog τ)
  | DG_SetWindowTitle (x : String) (k : Prog τ)
  | DG_SleepMs (x : Nat) (k : Prog τ)
  | DG_GetTicksMs (k : Nat → Prog τ)
  | DG_DrawFrame (k : Prog τ)
  | DG_GetKey (k : KeyResult → Prog τ)
  | render (screen : Nat → Nat) (k : Prog τ)

/-- Modelled from the spec: the two engine entry points the adapter calls, each choosing its
callback program from the engine's private state. -/
structure Engine (τ : Type) where
  doomgeneric_Create : τ → Prog τ
  doomgeneric_Tick : τ → Prog τ

section Driver

variable {σ τ : Type}

/-- Running an engine program: every callback is the adapter function of that name. -/
def runProg (h : Host σ) (c : Consts) : Prog τ → World σ τ → World σ τ
  | Prog.ret t, w => { w with engine := t }
  | Prog.DG_Init k, w => runProg h c k (DG_Init w)
  | Prog.DG_SetWindowTitle x k, w => runProg h c k (DG_SetWindowTitle h x w)
  | Prog.DG_SleepMs x k, w => runProg h c k (DG_SleepMs h x w)
  | Prog.DG_GetTicksMs k, w => runProg h c (k (DG_GetTicksMs h w).1) (DG_GetTicksMs h w).2
  | Prog.DG_DrawFrame k, w => runProg h c k (DG_DrawFrame h c w)
  | Prog.DG_GetKey k, w => runProg h c (k (DG_GetKey h w).1) (DG_GetKey h w).2
  | Prog.render screen k, w => runProg h c k { w with DG_ScreenBuffer := screen }

/-- The call `doomgeneric_Create (0, 0)` (line 93). -/
def doomgeneric_Create (h : Host σ) (c : Consts) (eng : Engine τ) (w : World σ τ) :
    World σ τ :=
  runProg h c (eng.doomgeneric_Create w.engine)
    { w with trace := w.trace ++ [Event.doomgeneric_Create w.env] }

/-- The call `doomgeneric_Tick ()` (line 72). -/
def doomgeneric_Tick (h : Host σ) (c : Consts) (eng : Engine τ) (w : World σ τ) : World σ τ :=
  runProg h c (eng.doomgeneric_Tick w.engine)
    { w with trace := w.trace ++ [Event.doomgeneric_Tick w.env] }

/-- `tick` (line 69): the function registered as `doom-tick`; `env_` is its first argument,
the other three are unused. -/
def tick (h : Host σ) (c : Consts) (eng : Engine τ) (env_ : emacs_env_ptr) (w : World σ τ) :
    emacs_value × World σ τ :=
  let w1 := { w with env := env_ }
  let w2 := doomgeneric_Tick h c eng w1
  (w2.Qnil, w2)

/-- `rt->get_environment (rt)` assigned to the static `env` (line 79). -/
def rt_get_environment (h : Host σ) (rt : emacs_runtime) (w : World σ τ) : World σ τ :=
  let r := h.get_environment rt w.host
  { w with env := r.1, host := r.2, trace := w.trace ++ [Event.get_environment] }

/-- `emacs_module_init` (line 76). The arguments of the `defalias` call are evaluated left to
right (C leaves their order open). -/
def emacs_module_init (h : Host σ) (c : Consts) (eng : Engine τ) (rt : emacs_runtime)
    (w : World σ τ) : Int × World σ τ :=
  if toSizeT rt.size < c.sizeof_emacs_runtime then (1, w)
  else
    let w0 := rt_get_environment h rt w
    if toSizeT (h.env_size w0.env w0.host) < c.sizeof_emacs_env then (2, w0)
    else
      let s1 := sym h "nil" w0
      let w1 := { s1.2 with Qnil := s1.1 }
      let s2 := sym h "accept-process-output" w1
      let w2 := { s2.2 with Qaccept_process_output := s2.1 }
      let s3 := sym h "doom-ms" w2
      let w3 := { s3.2 with Qdoom_ms := s3.1 }
      let s4 := sym h "doom-canvas" w3
      let w4 := { s4.2 with Qdoom_canvas := s4.1 }
      let s5 := sym h "doom-key" w4
      let w5 := { s5.2 with Qdoom_key := s5.1 }
      let s6 := sym h "doom-title" w5
      let w6 := { s6.2 with Qdoom_title := s6.1 }
      let d := env_intern h "defalias" w6
      let t := env_intern h "doom-tick" d.2
      let f := env_make_function h 0 0 t.2
      let r := env_funcall h d.1 [t.1, f.1] f.2
      (0, doomgeneric_Create h c eng r.2)

/-- The operations the engine or the host can invoke on the adapter after initialisation. -/
inductive AdapterOp where
  | tick (env_ : emacs_env_ptr)
  | DG_Init
  | DG_SetWindowTitle (x : String)
  | DG_SleepMs (x : Nat)
  | DG_GetTicksMs
  | DG_DrawFrame
  | DG_GetKey
  deriving DecidableEq

/-- The state after one adapter operation. -/
def AdapterOp.run (h : Host σ) (c : Consts) (eng : Engine τ) :
    AdapterOp → World σ τ → World σ τ
  | AdapterOp.tick env_, w => (DoomEmacs.tick h c eng env_ w).2
  | AdapterOp.DG_Init, w => DoomEmacs.DG_Init w
  | AdapterOp.DG_SetWindowTitle x, w => DoomEmacs.DG_SetWindowTitle h x w
  | AdapterOp.DG_SleepMs x, w => DoomEmacs.DG_SleepMs h x w
  | AdapterOp.DG_GetTicksMs, w => (DoomEmacs.DG_GetTicksMs h w).2
  | AdapterOp.DG_DrawFrame, w => DoomEmacs.DG_DrawFrame h c w
  | AdapterOp.DG_GetKey, w => (DoomEmacs.DG_GetKey h w).2

/-- The state after a sequence of adapter operations. -/
def runOps (h : Host σ) (c : Consts) (eng : Engine τ) :
    List AdapterOp → World σ τ → World σ τ
  | [], w => w
  | op :: ops, w => runOps h c eng ops (op.run h c eng w)

/-- Successive invocations of `tick`, one per supplied handle; returns what each returned. -/
def ticks (h : Host σ) (c : Consts) (eng : Engine τ) :
    List emacs_env_ptr → World σ τ → List emacs_value × World σ τ
  | [], w => ([], w)
  | e :: es, w =>
    ((tick h c eng e w).1 :: (ticks h c eng es (tick h c eng e w).2).1,
     (ticks h c eng es (tick h c eng e w).2).2)

end Driver

/-! ## Observing the host -/

section Observations

variable {σ τ : Type}

/-- The integer the host hands back for `env->extract_integer (env, env->funcall (env, f, 0, 0))`
when asked in world `w`. -/
def hostInteger (h : Host σ) (f : emacs_value) (w : World σ τ) : Int :=
  (h.extract_integer w.env (h.funcall w.env f [] w.host).1 (h.funcall w.env f [] w.host).2).1

/-- The handle `rt->get_environment (rt)` returns when called in world `w`. -/
def hostEnv (h : Host σ) (rt : emacs_runtime) (w : World σ τ) : emacs_env_ptr :=
  (h.get_environment rt w.host).1

/-- The `size` field of the services record behind that handle. -/
def hostEnvSize (h : Host σ) (rt : emacs_runtime) (w : World σ τ) : Int :=
  h.env_size (h.get_environment rt w.host).1 (h.get_environment rt w.host).2

/-- The value `doom-canvas` returns when called in world `w`. -/
def hostCanvas (h : Host σ) (w : World σ τ) : emacs_value :=
  (h.funcall w.env w.Qdoom_canvas [] w.host).1

/-- Whether the host reports that value as non-nil. -/
def hostCanvasNotNil (h : Host σ) (w : World σ τ) : Bool :=
  (h.is_not_nil w.env (hostCanvas h w) (h.funcall w.env w.Qdoom_canvas [] w.host).2).1

/-- The pixel buffer address `canvas_pixel` returns for that value (`0` is null). -/
def hostCanvasPixel (h : Host σ) (w : World σ τ) : Nat :=
  (h.canvas_pixel w.env (hostCanvas h w)
    (h.is_not_nil w.env (hostCanvas h w) (h.funcall w.env w.Qdoom_canvas [] w.host).2).2).1

/-- The handle recorded by an engine frame-step entry. -/
def Event.tickHandle : Event → Option emacs_env_ptr
  | Event.doomgeneric_Tick e => some e
  | _ => none

/-- The handles with which the engine's frame step was entered, oldest first. -/
def engineTicks (t : List Event) : List emacs_env_ptr := t.filterMap Event.tickHandle

/-- The canvas of a `canvas_refresh` call. -/
def Event.refreshed : Event → Option emacs_value
  | Event.canvas_refresh _ v => some v
  | _ => none

/-- The canvases on which `canvas_refresh` was called, oldest first. -/
def refreshes (t : List Event) : List emacs_value := t.filterMap Event.refreshed

/-- The event is one of the host service calls the callbacks `DG_*` make, made through the
handle `e`. -/
def Event.viaHandle (e : emacs_env_ptr) : Event → Bool
  | Event.funcall e1 _ _ => decide (e1 = e)
  | Event.make_string e1 _ _ => decide (e1 = e)
  | Event.make_float e1 _ => decide (e1 = e)
  | Event.extract_integer e1 _ => decide (e1 = e)
  | Event.is_not_nil e1 _ => decide (e1 = e)
  | Event.canvas_pixel e1 _ => decide (e1 = e)
  | Event.canvas_refresh e1 _ => decide (e1 = e)
  | _ => false

/-- The footprint of callback code between two worlds: the symbol table and the current
handle are the same, and the trace grew by host service calls through that handle only. -/
structure Callback {σ τ : Type} (w w1 : World σ τ) : Prop where
  symbols : w1.symbols = w.symbols
  env : w1.env = w.env
  trace : ∃ new, w1.trace = w.trace ++ new ∧ ∀ ev ∈ new, Event.viaHandle w.env ev = true

/-- The registration steps of `emacs_module_init`: interning, global references, function
creation, function calls (`defalias`) and engine creation. -/
def Event.isRegistration : Event → Bool
  | Event.intern _ _ => true
  | Event.make_global_ref _ _ => true
  | Event.make_function _ _ _ => true
  | Event.funcall _ _ _ => true
  | Event.doomgeneric_Create _ => true
  | _ => false

/-- The names resolved into the symbol table, in the order of `World.symbols`. -/
def symbolNames : List String :=
  ["nil", "accept-process-output", "doom-ms", "doom-canvas", "doom-key", "doom-title"]

/-- Specification side of the symbol table ("resolve all required host operation identifiers
into the Symbol Table"): each name is interned and made a global reference, in order. The
statics after `emacs_module_init` are compared with it. -/
def resolveAll (h : Host σ) (e : emacs_env_ptr) : List String → σ → List emacs_value × σ
  | [], s => ([], s)
  | n :: ns, s =>
    let i := h.intern e n s
    let g := h.make_global_ref e i.1 i.2
    (g.1 :: (resolveAll h e ns g.2).1, (resolveAll h e ns g.2).2)

end Observations

/-! ## A concrete host and engine, for evaluation -/

/-- State of the sample host: a millisecond clock, the pending key codes, the address of the
canvas pixel buffer (`0` while there is no window), the size field of its services record,
and the integer behind the last value it returned. -/
structure DemoState where
  clock : Int
  keys : List Int
  surface : Nat
  envSize : Int
  last : Int

/-- Symbol numbering of the sample host. -/
def demoIntern (name : String) : emacs_value :=
  if name = "nil" then 1
  else if name = "accept-process-output" then 2
  else if name = "doom-ms" then 3
  else if name = "doom-canvas" then 4
  else if name = "doom-key" then 5
  else if name = "doom-title" then 6
  else if name = "defalias" then 7
  else if name = "doom-tick" then 8
  else 9

/-- Function calls of the sample host: `doom-ms` (103) reads and advances the clock,
`doom-key` (105) pops the key queue (0 when empty), `doom-canvas` (104) returns the canvas
(300) or nil (101). -/
def demoFuncall (f : emacs_value) (s : DemoState) : emacs_value × DemoState :=
  if f = 103 then (200, { s with last := s.clock, clock := s.clock + 1 })
  else if f = 105 then (200, { s with last := s.keys.headD 0, keys := s.keys.tail })
  else if f = 104 then (if s.surface = 0 then 101 else 300, s)
  else (101, s)

/-- A sample host: global references are the symbol number plus 100, the services record
lives at address 4096. -/
def demoHost : Host DemoState :=
  { get_environment := fun _ s => (4096, s),
    env_size := fun _ s => s.envSize,
    intern := fun _ name s => (demoIntern name, s),
    make_global_ref := fun _ v s => (v + 100, s),
    funcall := fun _ f _ s => demoFuncall f s,
    make_function := fun _ _ _ s => (400, s),
    make_string := fun _ _ _ s => (500, s),
    make_float := fun _ _ s => (600, s),
    extract_integer := fun _ _ s => (s.last, s),
    is_not_nil := fun _ v s => (decide (v ≠ 101) && decide (v ≠ 1), s),
    canvas_pixel := fun _ _ s => (s.surface, s),
    canvas_refresh := fun _ _ s => s }

/-- A sample engine: creation calls `DG_Init`; a frame reads the clock, polls one key, draws,
and counts the frame. -/
def demoEngine : Engine Nat :=
  { doomgeneric_Create := fun t => Prog.DG_Init (Prog.ret t),
    doomgeneric_Tick := fun t =>
      Prog.DG_GetTicksMs (fun _ => Prog.DG_GetKey (fun _ => Prog.DG_DrawFrame (Prog.ret (t + 1)))) }

/-- Sample constants: a 24-byte runtime record, a 512-byte services record, 640 x 400 frame. -/
def demoConsts : Consts :=
  { sizeof_emacs_runtime := 24, sizeof_emacs_env := 512,
    DOOMGENERIC_RESX := 640, DOOMGENERIC_RESY := 400 }

/-- A sample host state. -/
def demoState (clock : Int) (keys : List Int) (surface : Nat) (envSize : Int) : DemoState :=
  { clock := clock, keys := keys, surface := surface, envSize := envSize, last := 0 }

/-- A sample world after initialisation: symbols resolved, handle 4096, a frame buffer holding
the byte `i % 256` at offset `i`, host memory all zero. -/
def demoWorld (s : DemoState) : World DemoState Nat :=
  { Qnil := 101, Qaccept_process_output := 102, Qdoom_key := 105, Qdoom_ms := 103,
    Qdoom_canvas := 104, Qdoom_title := 106, env := 4096,
    DG_ScreenBuffer := fun i => i % 256, mem := fun _ => 0, host := s, engine := 0,
    trace := [] }

/-! ## Arithmetic of the conversions -/

theorem ldiff_255 (n : Nat) : Nat.ldiff 255 n = 255 - n % 256 := by
  apply Nat.eq_of_testBit_eq
  intro k
  have h1 : Nat.testBit 255 k = decide (k < 8) := Nat.testBit_two_pow_sub_one 8 k
  have h2 : Nat.testBit (n % 256) k = (decide (k < 8) && Nat.testBit n k) :=
    Nat.testBit_mod_two_pow n 8 k
  have h3 : Nat.testBit (2 ^ 8 - (n % 256 + 1)) k
      = (decide (k < 8) && !Nat.testBit (n % 256) k) :=
    Nat.testBit_two_pow_sub_succ (Nat.mod_lt n (by decide)) k
  have h4 : 255 - n % 256 = 2 ^ 8 - (n % 256 + 1) := by omega
  rw [Nat.testBit_ldiff, h4, h3, h2, h1]
  by_cases hk : k < 8 <;> simp [hk]

/-- Masking with 255 keeps the residue modulo 256, for negative operands too. -/
theorem land_255 (i : Int) : Int.land i 255 = i % 256 := by
  cases i with
  | ofNat n =>
    show ((Nat.land n 255 : Nat) : Int) = _
    have hn : Nat.land n 255 = n % 256 := Nat.and_pow_two_sub_one_eq_mod n 8
    rw [hn]; rfl
  | negSucc n =>
    show ((Nat.ldiff 255 n : Nat) : Int) = _
    rw [ldiff_255]
    simp only [Int.negSucc_eq]
    omega

/-- Bit `k` of a two's complement integer, arithmetically. -/
theorem testBit_eq_div_mod (v : Int) (k : Nat) :
    Int.testBit v k = decide (v / 2 ^ k % 2 = 1) := by
  cases v with
  | ofNat n =>
    show Nat.testBit n k = _
    rw [Nat.testBit_to_div_mod]
    congr 1
    apply propext
    show _ ↔ ((n : Int) / 2 ^ k % 2 = 1)
    norm_cast
  | negSucc n =>
    show (!Nat.testBit n k) = _
    rw [Nat.testBit_to_div_mod]
    have hd : Int.negSucc n / 2 ^ k = -((n / 2 ^ k : Nat) + 1 : Int) := by
      have he := Int.negSucc_ediv n (b := (2 : Int) ^ k) (by positivity)
      rw [he]; push_cast; rfl
    rw [hd]
    generalize n / 2 ^ k = q
    by_cases hq : q % 2 = 1 <;> simp [hq] <;> omega

theorem shiftRight_8 (i : Int) : Int.shiftRight i 8 = i / 256 := by
  have h := Int.shiftRight_eq_div_pow i 8
  simpa using h

theorem testBit_8 (v : Int) : Int.testBit v 8 = decide (v / 256 % 2 = 1) := by
  have h := testBit_eq_div_mod v 8
  simpa using h

/-- Bits 8..31 are all clear exactly when the low 32 bits are below 256. -/
theorem high_bits_clear_iff (v : Int) :
    (∀ k : Nat, 8 ≤ k → k < 32 → Int.testBit v k = false) ↔ v % 4294967296 < 256 := by
  constructor
  · intro h
    have b (k : Nat) (h1 : 8 ≤ k) (h2 : k < 32) : ¬ (v / 2 ^ k % 2 = 1) := by
      have := h k h1 h2
      rw [testBit_eq_div_mod] at this
      simpa using this
    have b8 := b 8 (by decide) (by decide)
    have b9 := b 9 (by decide) (by decide)
    have b10 := b 10 (by decide) (by decide)
    have b11 := b 11 (by decide) (by decide)
    have b12 := b 12 (by decide) (by decide)
    have b13 := b 13 (by decide) (by decide)
    have b14 := b 14 (by decide) (by decide)
    have b15 := b 15 (by decide) (by decide)
    have b16 := b 16 (by decide) (by decide)
    have b17 := b 17 (by decide) (by decide)
    have b18 := b 18 (by decide) (by decide)
    have b19 := b 19 (by decide) (by decide)
    have b20 := b 20 (by decide) (by decide)
    have b21 := b 21 (by decide) (by decide)
    have b22 := b 22 (by decide) (by decide)
    have b23 := b 23 (by decide) (by decide)
    have b24 := b 24 (by decide) (by decide)
    have b25 := b 25 (by decide) (by decide)
    have b26 := b 26 (by decide) (by decide)
    have b27 := b 27 (by decide) (by decide)
    have b28 := b 28 (by decide) (by decide)
    have b29 := b 29 (by decide) (by decide)
    have b30 := b 30 (by decide) (by decide)
    have b31 := b 31 (by decide) (by decide)
    norm_num at b8 b9 b10 b11 b12 b13 b14 b15 b16 b17 b18 b19 b20 b21 b22 b23 b24 b25 b26 b27 b28 b29 b30 b31
    omega
  · intro h k h1 h2
    rw [testBit_eq_div_mod]
    simp only [decide_eq_false_iff_not]
    interval_cases k <;> norm_num <;> omega

/-- Bits 9..31 clear bound the low 32 bits by 512. -/
theorem low_bits_of_clear_from_9 (v : Int)
    (h : ∀ k : Nat, 9 ≤ k → k < 32 → Int.testBit v k = false) : v % 4294967296 < 512 := by
  have b (k : Nat) (h1 : 9 ≤ k) (h2 : k < 32) : ¬ (v / 2 ^ k % 2 = 1) := by
    have := h k h1 h2
    rw [testBit_eq_div_mod] at this
    simpa using this
  have b9 := b 9 (by decide) (by decide)
  have b10 := b 10 (by decide) (by decide)
  have b11 := b 11 (by decide) (by decide)
  have b12 := b 12 (by decide) (by decide)
  have b13 := b 13 (by decide) (by decide)
  have b14 := b 14 (by decide) (by decide)
  have b15 := b 15 (by decide) (by decide)
  have b16 := b 16 (by decide) (by decide)
  have b17 := b 17 (by decide) (by decide)
  have b18 := b 18 (by decide) (by decide)
  have b19 := b 19 (by decide) (by decide)
  have b20 := b 20 (by decide) (by decide)
  have b21 := b 21 (by decide) (by decide)
  have b22 := b 22 (by decide) (by decide)
  have b23 := b 23 (by decide) (by decide)
  have b24 := b 24 (by decide) (by decide)
  have b25 := b 25 (by decide) (by decide)
  have b26 := b 26 (by decide) (by decide)
  have b27 := b 27 (by decide) (by decide)
  have b28 := b 28 (by decide) (by decide)
  have b29 := b 29 (by decide) (by decide)
  have b30 := b 30 (by decide) (by decide)
  have b31 := b 31 (by decide) (by decide)
  norm_num at b9 b10 b11 b12 b13 b14 b15 b16 b17 b18 b19 b20 b21 b22 b23 b24 b25 b26 b27 b28 b29 b30 b31
  omega

section Decoding

variable {σ τ : Type}

/-- What `DG_GetKey` returns, in terms of the integer the host handed back. -/
theorem DG_GetKey_fst (h : Host σ) (w : World σ τ) :
    (DG_GetKey h w).1 =
      { ret := if toInt32 (hostInteger h w.Qdoom_key w) ≠ 0 then 1 else 0,
        pressed := Int.shiftRight (toInt32 (hostInteger h w.Qdoom_key w)) 8,
        key := toUInt8 (Int.land (toInt32 (hostInteger h w.Qdoom_key w)) 255) } := rfl

/-- What `DG_GetTicksMs` returns, in terms of the integer the host handed back. -/
theorem DG_GetTicksMs_fst (h : Host σ) (w : World σ τ) :
    (DG_GetTicksMs h w).1 = toUInt32 (hostInteger h w.Qdoom_ms w) := rfl

theorem pressed_ne_zero_iff (v : Int) :
    Int.shiftRight (toInt32 v) 8 ≠ 0 ↔ ¬ (v % 4294967296 < 256) := by
  rw [shiftRight_8]
  unfold toInt32
  omega

end Decoding

/-! ## Claims -/

section DecodingClaims

variable {σ τ : Type}

/-- C1 (counterexample): with the host returning 0x200, bit 8 is clear, yet `DG_GetKey`
stores the nonzero value 2 in `*pressed`. -/
theorem C1_pressed_counterexample :
    hostInteger demoHost 105 (demoWorld (demoState 0 [512] 0 512)) = 512 ∧
    Int.testBit 512 8 = false ∧
    (DG_GetKey demoHost (demoWorld (demoState 0 [512] 0 512))).1.pressed = 2 ∧
    (DG_GetKey demoHost (demoWorld (demoState 0 [512] 0 512))).1.pressed ≠ 0 := by
  decide

/-- C1 (amended): `DG_GetKey` stores `(int)v >> 8` in `*pressed`. That value is nonzero
exactly when some bit among bits 8..31 of `v` is set. When bits 9..31 of `v` are clear (as in
0x107 and 0x003) it is nonzero exactly when bit 8 of `v` is set and zero exactly when bit 8 is
clear. -/
theorem C1_pressed_amended (h : Host σ) (w : World σ τ) :
    (DG_GetKey h w).1.pressed = Int.shiftRight (toInt32 (hostInteger h w.Qdoom_key w)) 8 ∧
    ((DG_GetKey h w).1.pressed ≠ 0 ↔
      ∃ k : Nat, 8 ≤ k ∧ k < 32 ∧ Int.testBit (hostInteger h w.Qdoom_key w) k = true) ∧
    ((∀ k : Nat, 9 ≤ k → k < 32 → Int.testBit (hostInteger h w.Qdoom_key w) k = false) →
      ((DG_GetKey h w).1.pressed ≠ 0 ↔ Int.testBit (hostInteger h w.Qdoom_key w) 8 = true) ∧
      ((DG_GetKey h w).1.pressed = 0 ↔ Int.testBit (hostInteger h w.Qdoom_key w) 8 = false)) := by
  rw [DG_GetKey_fst]
  generalize hostInteger h w.Qdoom_key w = v
  refine ⟨rfl, ?_, ?_⟩
  · show Int.shiftRight (toInt32 v) 8 ≠ 0 ↔ _
    rw [pressed_ne_zero_iff, ← high_bits_clear_iff]
    constructor
    · intro hn
      by_contra hc
      apply hn
      intro k h1 h2
      cases hb : Int.testBit v k with
      | false => rfl
      | true => exact absurd ⟨k, h1, h2, hb⟩ hc
    · rintro ⟨k, h1, h2, hb⟩ hall
      rw [hall k h1 h2] at hb
      exact Bool.noConfusion hb
  · intro hclear
    have hlt := low_bits_of_clear_from_9 v hclear
    show (Int.shiftRight (toInt32 v) 8 ≠ 0 ↔ _) ∧ (Int.shiftRight (toInt32 v) 8 = 0 ↔ _)
    have hp := pressed_ne_zero_iff v
    rw [testBit_8]
    simp only [decide_eq_true_eq, decide_eq_false_iff_not]
    constructor
    · rw [hp]; omega
    · rw [← not_iff_not, ← ne_eq, hp]; omega

/-- C1 (witness): the amended rule at the host value 0x107, whose bits 9..31 are clear. -/
theorem C1_pressed_amended_witness :
    ((DG_GetKey demoHost (demoWorld (demoState 0 [263] 0 512))).1.pressed ≠ 0 ↔
      Int.testBit (hostInteger demoHost (demoWorld (demoState 0 [263] 0 512)).Qdoom_key
        (demoWorld (demoState 0 [263] 0 512))) 8 = true) ∧
    ((DG_GetKey demoHost (demoWorld (demoState 0 [263] 0 512))).1.pressed = 0 ↔
      Int.testBit (hostInteger demoHost (demoWorld (demoState 0 [263] 0 512)).Qdoom_key
        (demoWorld (demoState 0 [263] 0 512))) 8 = false) :=
  (C1_pressed_amended demoHost (demoWorld (demoState 0 [263] 0 512))).2.2
    (by intro k h1 h2; interval_cases k <;> decide)

/-- C2 (counterexample): with the host returning the nonzero 64-bit value 2^32,
`DG_GetKey` returns 0, "no event". -/
theorem C2_ret_counterexample :
    hostInteger demoHost 105 (demoWorld (demoState 0 [4294967296] 0 512)) = 4294967296 ∧
    (4294967296 : Int) ≠ 0 ∧
    (-9223372036854775808 : Int) ≤ 4294967296 ∧ (4294967296 : Int) < 9223372036854775808 ∧
    (DG_GetKey demoHost (demoWorld (demoState 0 [4294967296] 0 512))).1.ret = 0 := by
  decide

/-- C2 (amended): `DG_GetKey` returns 0 exactly when the low 32 bits of the host value `v` are
all zero (that is, `(int)v` is 0) and returns 1 otherwise; for every `v` in the range of `int`
it returns 0 if and only if `v` is 0. -/
theorem C2_ret_amended (h : Host σ) (w : World σ τ) :
    ((DG_GetKey h w).1.ret = 0 ∨ (DG_GetKey h w).1.ret = 1) ∧
    ((DG_GetKey h w).1.ret = 0 ↔ hostInteger h w.Qdoom_key w % 4294967296 = 0) ∧
    ((DG_GetKey h w).1.ret ≠ 0 ↔ hostInteger h w.Qdoom_key w % 4294967296 ≠ 0) ∧
    (-2147483648 ≤ hostInteger h w.Qdoom_key w → hostInteger h w.Qdoom_key w < 2147483648 →
      ((DG_GetKey h w).1.ret = 0 ↔ hostInteger h w.Qdoom_key w = 0)) := by
  rw [DG_GetKey_fst]
  generalize hostInteger h w.Qdoom_key w = v
  show ((if toInt32 v ≠ 0 then (1 : Int) else 0) = 0 ∨ (if toInt32 v ≠ 0 then (1 : Int) else 0) = 1) ∧
    ((if toInt32 v ≠ 0 then (1 : Int) else 0) = 0 ↔ _) ∧
    ((if toInt32 v ≠ 0 then (1 : Int) else 0) ≠ 0 ↔ _) ∧
    (_ → _ → ((if toInt32 v ≠ 0 then (1 : Int) else 0) = 0 ↔ _))
  unfold toInt32
  by_cases hz : (v + 2147483648) % 4294967296 - 2147483648 ≠ 0
  · rw [if_pos hz]
    refine ⟨Or.inr rfl, ?_, ?_, ?_⟩ <;> omega
  · rw [if_neg hz]
    refine ⟨Or.inl rfl, ?_, ?_, ?_⟩ <;> omega

/-- C2 (witness): the amended rule at the in-range host value 0x003. -/
theorem C2_ret_amended_witness :
    (DG_GetKey demoHost (demoWorld (demoState 0 [3] 0 512))).1.ret = 0 ↔
      hostInteger demoHost (demoWorld (demoState 0 [3] 0 512)).Qdoom_key
        (demoWorld (demoState 0 [3] 0 512)) = 0 :=
  (C2_ret_amended demoHost (demoWorld (demoState 0 [3] 0 512))).2.2.2 (by decide) (by decide)

/-- C3: `DG_GetKey` stores in `*key` exactly `v & 0xFF`, the low 8 bits of the host value `v`
(its residue modulo 256, a value in 0..255), whatever the higher bits of `v` are. -/
theorem C3_key_low_byte (h : Host σ) (w : World σ τ) :
    ((DG_GetKey h w).1.key : Int) = Int.land (hostInteger h w.Qdoom_key w) 255 ∧
    ((DG_GetKey h w).1.key : Int) = hostInteger h w.Qdoom_key w % 256 ∧
    (DG_GetKey h w).1.key < 256 ∧
    (∀ k : Nat, Nat.testBit (DG_GetKey h w).1.key k =
      (decide (k < 8) && Int.testBit (hostInteger h w.Qdoom_key w) k)) := by
  rw [DG_GetKey_fst]
  generalize hostInteger h w.Qdoom_key w = v
  show ((toUInt8 (Int.land (toInt32 v) 255) : Nat) : Int) = _ ∧
    ((toUInt8 (Int.land (toInt32 v) 255) : Nat) : Int) = _ ∧
    toUInt8 (Int.land (toInt32 v) 255) < 256 ∧ _
  rw [land_255, land_255]
  have hk : ((toUInt8 (toInt32 v % 256) : Nat) : Int) = v % 256 := by
    unfold toUInt8 toInt32
    omega
  refine ⟨hk, hk, ?_, ?_⟩
  · omega
  · intro k
    have hb : Int.testBit ((toUInt8 (toInt32 v % 256) : Nat) : Int) k
        = Nat.testBit (toUInt8 (toInt32 v % 256)) k := rfl
    rw [← hb, hk, ← land_255, Int.testBit_land]
    have h255 : Int.testBit 255 k = decide (k < 8) := Nat.testBit_two_pow_sub_one 8 k
    rw [h255, Bool.and_comm]

/-- C3 (examples): the host values 0x107 and 0x003 give the keys 0x07 and 0x03. -/
theorem C3_key_examples :
    (DG_GetKey demoHost (demoWorld (demoState 0 [263] 0 512))).1.key = 7 ∧
    (DG_GetKey demoHost (demoWorld (demoState 0 [3] 0 512))).1.key = 3 := by
  decide

/-- C8 (counterexample): two successive calls in which `doom-ms` returns 4294967295 and then
4294967296 yield 4294967295 and then 0. -/
theorem C8_ticks_counterexample :
    hostInteger demoHost 103 (demoWorld (demoState 4294967295 [] 0 512)) = 4294967295 ∧
    hostInteger demoHost 103
      (DG_GetTicksMs demoHost (demoWorld (demoState 4294967295 [] 0 512))).2 = 4294967296 ∧
    (DG_GetTicksMs demoHost (demoWorld (demoState 4294967295 [] 0 512))).1 = 4294967295 ∧
    (DG_GetTicksMs demoHost
      (DG_GetTicksMs demoHost (demoWorld (demoState 4294967295 [] 0 512))).2).1 = 0 ∧
    ¬ ((DG_GetTicksMs demoHost (demoWorld (demoState 4294967295 [] 0 512))).1 ≤
      (DG_GetTicksMs demoHost
        (DG_GetTicksMs demoHost (demoWorld (demoState 4294967295 [] 0 512))).2).1) := by
  decide

/-- C8 (amended): `DG_GetTicksMs` returns the host counter reduced modulo 2^32. For two calls
in which `doom-ms` returns `a <= b` within the same 2^32 window (equal quotient by 2^32, in
particular `0 <= a <= b < 2^32`) the returned values satisfy `result(a) <= result(b)`. -/
theorem C8_ticks_amended (h : Host σ) (w1 w2 : World σ τ)
    (hle : hostInteger h w1.Qdoom_ms w1 ≤ hostInteger h w2.Qdoom_ms w2)
    (hwin : hostInteger h w1.Qdoom_ms w1 / 4294967296 = hostInteger h w2.Qdoom_ms w2 / 4294967296) :
    ((DG_GetTicksMs h w1).1 : Int) = hostInteger h w1.Qdoom_ms w1 % 4294967296 ∧
    ((DG_GetTicksMs h w2).1 : Int) = hostInteger h w2.Qdoom_ms w2 % 4294967296 ∧
    (DG_GetTicksMs h w1).1 ≤ (DG_GetTicksMs h w2).1 := by
  rw [DG_GetTicksMs_fst, DG_GetTicksMs_fst]
  generalize hostInteger h w1.Qdoom_ms w1 = a at hle hwin
  generalize hostInteger h w2.Qdoom_ms w2 = b at hle hwin
  unfold toUInt32
  omega

/-- C8 (witness): two successive calls of the sample host at clock values 1000 and 1001. -/
theorem C8_ticks_amended_witness :
    (DG_GetTicksMs demoHost (demoWorld (demoState 1000 [] 0 512))).1 ≤
      (DG_GetTicksMs demoHost
        (DG_GetTicksMs demoHost (demoWorld (demoState 1000 [] 0 512))).2).1 :=
  (C8_ticks_amended demoHost (demoWorld (demoState 1000 [] 0 512))
    (DG_GetTicksMs demoHost (demoWorld (demoState 1000 [] 0 512))).2
    (by decide) (by decide)).2.2

end DecodingClaims

section Footprint

variable {σ τ : Type}

theorem Callback.refl (w : World σ τ) : Callback w w :=
  ⟨rfl, rfl, [], by simp, by simp⟩

theorem Callback.trans {w w1 w2 : World σ τ} (a : Callback w w1) (b : Callback w1 w2) :
    Callback w w2 := by
  obtain ⟨n1, h1, g1⟩ := a.trace
  obtain ⟨n2, h2, g2⟩ := b.trace
  refine ⟨b.symbols.trans a.symbols, b.env.trans a.env, n1 ++ n2, ?_, ?_⟩
  · rw [h2, h1, List.append_assoc]
  · intro ev hev
    rcases List.mem_append.mp hev with hm | hm
    · exact g1 ev hm
    · rw [← a.env]; exact g2 ev hm

/-- A step that keeps the statics and appends one service call through the handle. -/
theorem Callback.step {w w1 : World σ τ} (ev : Event) (hs : w1.symbols = w.symbols)
    (he : w1.env = w.env) (ht : w1.trace = w.trace ++ [ev])
    (hv : Event.viaHandle w.env ev = true) : Callback w w1 :=
  ⟨hs, he, [ev], ht, by simpa using hv⟩

theorem env_funcall_callback (h : Host σ) (f : emacs_value) (args : List emacs_value)
    (w : World σ τ) : Callback w (env_funcall h f args w).2 :=
  Callback.step (Event.funcall w.env f args) rfl rfl rfl (by simp [Event.viaHandle])

theorem env_make_string_callback (h : Host σ) (s : String) (n : Nat) (w : World σ τ) :
    Callback w (env_make_string h s n w).2 :=
  Callback.step (Event.make_string w.env s n) rfl rfl rfl (by simp [Event.viaHandle])

theorem env_make_float_callback (h : Host σ) (x : Nat) (w : World σ τ) :
    Callback w (env_make_float h x w).2 :=
  Callback.step (Event.make_float w.env x) rfl rfl rfl (by simp [Event.viaHandle])

theorem env_extract_integer_callback (h : Host σ) (v : emacs_value) (w : World σ τ) :
    Callback w (env_extract_integer h v w).2 :=
  Callback.step (Event.extract_integer w.env v) rfl rfl rfl (by simp [Event.viaHandle])

theorem env_is_not_nil_callback (h : Host σ) (v : emacs_value) (w : World σ τ) :
    Callback w (env_is_not_nil h v w).2 :=
  Callback.step (Event.is_not_nil w.env v) rfl rfl rfl (by simp [Event.viaHandle])

theorem env_canvas_pixel_callback (h : Host σ) (v : emacs_value) (w : World σ τ) :
    Callback w (env_canvas_pixel h v w).2 :=
  Callback.step (Event.canvas_pixel w.env v) rfl rfl rfl (by simp [Event.viaHandle])

theorem env_canvas_refresh_callback (h : Host σ) (v : emacs_value) (w : World σ τ) :
    Callback w (env_canvas_refresh h v w) :=
  Callback.step (Event.canvas_refresh w.env v) rfl rfl rfl (by simp [Event.viaHandle])

theorem refresh_after_write_callback (h : Host σ) (v : emacs_value) (w : World σ τ)
    (m : Nat → Nat) : Callback w (env_canvas_refresh h v { w with mem := m }) :=
  Callback.step (Event.canvas_refresh w.env v) rfl rfl rfl (by simp [Event.viaHandle])

theorem DG_Init_callback (w : World σ τ) : Callback w (DG_Init w) := Callback.refl w

theorem DG_SetWindowTitle_callback (h : Host σ) (x : String) (w : World σ τ) :
    Callback w (DG_SetWindowTitle h x w) :=
  (env_make_string_callback h x x.utf8ByteSize w).trans (env_funcall_callback h _ _ _)

theorem DG_SleepMs_callback (h : Host σ) (x : Nat) (w : World σ τ) :
    Callback w (DG_SleepMs h x w) :=
  (env_make_float_callback h (x % 4294967296) w).trans (env_funcall_callback h _ _ _)

theorem DG_GetTicksMs_callback (h : Host σ) (w : World σ τ) :
    Callback w (DG_GetTicksMs h w).2 :=
  (env_funcall_callback h w.Qdoom_ms [] w).trans (env_extract_integer_callback h _ _)

theorem DG_GetKey_callback (h : Host σ) (w : World σ τ) : Callback w (DG_GetKey h w).2 :=
  (env_funcall_callback h w.Qdoom_key [] w).trans (env_extract_integer_callback h _ _)

theorem DG_DrawFrame_callback (h : Host σ) (c : Consts) (w : World σ τ) :
    Callback w (DG_DrawFrame h c w) := by
  have a := env_funcall_callback h w.Qdoom_canvas [] w
  have b := a.trans (env_is_not_nil_callback h (env_funcall h w.Qdoom_canvas [] w).1 _)
  unfold DG_DrawFrame
  cases hnn : (env_is_not_nil h (env_funcall h w.Qdoom_canvas [] w).1
      (env_funcall h w.Qdoom_canvas [] w).2).1 with
  | false => simpa [hnn] using b
  | true =>
    have d := b.trans (env_canvas_pixel_callback h (env_funcall h w.Qdoom_canvas [] w).1 _)
    simp only [hnn, if_true]
    split
    · exact d.trans (refresh_after_write_callback h _ _ _)
    · exact d

theorem runProg_callback (h : Host σ) (c : Consts) (p : Prog τ) :
    ∀ w : World σ τ, Callback w (runProg h c p w) := by
  induction p with
  | ret t => intro w; exact ⟨rfl, rfl, [], by simp [runProg], by simp⟩
  | DG_Init k ih => intro w; exact (DG_Init_callback w).trans (ih _)
  | DG_SetWindowTitle x k ih => intro w; exact (DG_SetWindowTitle_callback h x w).trans (ih _)
  | DG_SleepMs x k ih => intro w; exact (DG_SleepMs_callback h x w).trans (ih _)
  | DG_GetTicksMs k ih => intro w; exact (DG_GetTicksMs_callback h w).trans (ih _ _)
  | DG_DrawFrame k ih => intro w; exact (DG_DrawFrame_callback h c w).trans (ih _)
  | DG_GetKey k ih => intro w; exact (DG_GetKey_callback h w).trans (ih _ _)
  | render screen k ih =>
    intro w
    have a : Callback w { w with DG_ScreenBuffer := screen } :=
      ⟨rfl, rfl, [], by simp, by simp⟩
    exact a.trans (ih _)

end Footprint

section TickFacts

variable {σ τ : Type}

theorem engineTicks_append (a b : List Event) :
    engineTicks (a ++ b) = engineTicks a ++ engineTicks b := by
  simp [engineTicks, List.filterMap_append]

theorem tickHandle_of_viaHandle (e : emacs_env_ptr) (ev : Event)
    (hv : Event.viaHandle e ev = true) : Event.tickHandle ev = none := by
  cases ev <;> first | rfl | exact Bool.noConfusion hv

theorem engineTicks_of_viaHandle (e : emacs_env_ptr) (new : List Event)
    (hv : ∀ ev ∈ new, Event.viaHandle e ev = true) : engineTicks new = [] := by
  induction new with
  | nil => rfl
  | cons ev evs ih =>
    have h1 := tickHandle_of_viaHandle e ev (hv ev (List.mem_cons_self _ _))
    have h2 := ih (fun x hx => hv x (List.mem_cons_of_mem _ hx))
    unfold engineTicks at h2 ⊢
    rw [List.filterMap_cons_none h1, h2]

theorem Callback.Qnil {w w1 : World σ τ} (a : Callback w w1) : w1.Qnil = w.Qnil := by
  have hs := a.symbols
  simp only [World.symbols, List.cons.injEq] at hs
  exact hs.1

/-- One invocation of `tick`: result, handle, symbol table and trace. -/
theorem tick_spec (h : Host σ) (c : Consts) (eng : Engine τ) (e : emacs_env_ptr)
    (w : World σ τ) :
    (tick h c eng e w).1 = w.Qnil ∧
    (tick h c eng e w).2.env = e ∧
    (tick h c eng e w).2.symbols = w.symbols ∧
    ∃ new, (tick h c eng e w).2.trace = w.trace ++ Event.doomgeneric_Tick e :: new ∧
      ∀ ev ∈ new, Event.viaHandle e ev = true := by
  have a := runProg_callback h c (eng.doomgeneric_Tick w.engine)
    ({ w with env := e, trace := w.trace ++ [Event.doomgeneric_Tick e] } : World σ τ)
  obtain ⟨new, ht, hv⟩ := a.trace
  refine ⟨a.Qnil, a.env, a.symbols, new, ?_, hv⟩
  show (runProg h c (eng.doomgeneric_Tick w.engine) _).trace = _
  rw [ht]
  simp

/-- The engine entries recorded by a run of `ticks`, and what each invocation returned. -/
theorem ticks_spec (h : Host σ) (c : Consts) (eng : Engine τ) (es : List emacs_env_ptr) :
    ∀ w : World σ τ,
      engineTicks (ticks h c eng es w).2.trace = engineTicks w.trace ++ es ∧
      (ticks h c eng es w).1 = List.replicate es.length w.Qnil ∧
      (ticks h c eng es w).2.symbols = w.symbols := by
  induction es with
  | nil => intro w; simp [ticks]
  | cons e es ih =>
    intro w
    obtain ⟨hr, _, hs, new, ht, hv⟩ := tick_spec h c eng e w
    obtain ⟨i1, i2, i3⟩ := ih (tick h c eng e w).2
    have hq : (tick h c eng e w).2.Qnil = w.Qnil := by
      simp only [World.symbols, List.cons.injEq] at hs
      exact hs.1
    refine ⟨?_, ?_, ?_⟩
    · show engineTicks (ticks h c eng es (tick h c eng e w).2).2.trace = _
      rw [i1, ht, engineTicks_append]
      have hc : engineTicks (Event.doomgeneric_Tick e :: new) = e :: engineTicks new := by
        simp [engineTicks, Event.tickHandle]
      rw [hc, engineTicks_of_viaHandle e new hv]
      simp
    · show (tick h c eng e w).1 :: (ticks h c eng es (tick h c eng e w).2).1 = _
      rw [i2, hr, hq]
      rfl
    · show (ticks h c eng es (tick h c eng e w).2).2.symbols = _
      rw [i3, hs]

end TickFacts

section TickClaims

variable {σ τ : Type}

/-- C9: an invocation of `tick` with handle `e` makes `e` the current handle, enters
`doomgeneric_Tick` exactly once (with `e` current, every host call of the frame going through
`e`) and returns `Qnil`; successive invocations with handles `es` produce exactly one engine
frame step per invocation, in order, each entered with its own handle. -/
theorem C9_tick_once_per_invocation (h : Host σ) (c : Consts) (eng : Engine τ) :
    (∀ (e : emacs_env_ptr) (w : World σ τ),
      (tick h c eng e w).1 = w.Qnil ∧
      (tick h c eng e w).2.env = e ∧
      engineTicks (tick h c eng e w).2.trace = engineTicks w.trace ++ [e] ∧
      ∃ new, (tick h c eng e w).2.trace = w.trace ++ Event.doomgeneric_Tick e :: new ∧
        ∀ ev ∈ new, Event.viaHandle e ev = true) ∧
    (∀ (es : List emacs_env_ptr) (w : World σ τ),
      engineTicks (ticks h c eng es w).2.trace = engineTicks w.trace ++ es ∧
      (engineTicks (ticks h c eng es w).2.trace).length
        = (engineTicks w.trace).length + es.length ∧
      (ticks h c eng es w).1 = List.replicate es.length w.Qnil) := by
  constructor
  · intro e w
    obtain ⟨hr, he, _, new, ht, hv⟩ := tick_spec h c eng e w
    refine ⟨hr, he, ?_, new, ht, hv⟩
    have hc : engineTicks (Event.doomgeneric_Tick e :: new) = e :: engineTicks new := by
      simp [engineTicks, Event.tickHandle]
    rw [ht, engineTicks_append, hc, engineTicks_of_viaHandle e new hv]
  · intro es w
    obtain ⟨i1, i2, _⟩ := ticks_spec h c eng es w
    refine ⟨i1, ?_, i2⟩
    rw [i1, List.length_append]

/-- C9 (n = 3): three invocations of the sample engine with handles 11, 12, 13 on a host
without key input and without window: three frame steps, each with its own handle, each
invocation returning nil, no `canvas_refresh`. -/
theorem C9_three_ticks :
    engineTicks (ticks demoHost demoConsts demoEngine [11, 12, 13]
      (demoWorld (demoState 0 [] 0 512))).2.trace = [11, 12, 13] ∧
    (ticks demoHost demoConsts demoEngine [11, 12, 13]
      (demoWorld (demoState 0 [] 0 512))).1 = [101, 101, 101] ∧
    (ticks demoHost demoConsts demoEngine [11, 12, 13]
      (demoWorld (demoState 0 [] 0 512))).2.engine = 3 ∧
    refreshes (ticks demoHost demoConsts demoEngine [11, 12, 13]
      (demoWorld (demoState 0 [] 0 512))).2.trace = [] := by
  decide

end TickClaims

section InitFacts

variable {σ τ : Type}

theorem init_runtime_too_small (h : Host σ) (c : Consts) (eng : Engine τ) (rt : emacs_runtime)
    (w : World σ τ) (h1 : toSizeT rt.size < c.sizeof_emacs_runtime) :
    emacs_module_init h c eng rt w = (1, w) := by
  unfold emacs_module_init
  rw [if_pos h1]

theorem init_env_too_small (h : Host σ) (c : Consts) (eng : Engine τ) (rt : emacs_runtime)
    (w : World σ τ) (h1 : ¬ toSizeT rt.size < c.sizeof_emacs_runtime)
    (h2 : toSizeT (hostEnvSize h rt w) < c.sizeof_emacs_env) :
    emacs_module_init h c eng rt w = (2, rt_get_environment h rt w) := by
  unfold emacs_module_init
  rw [if_neg h1]
  exact if_pos h2

/-- The world just before `doomgeneric_Create (0, 0)` on the successful path. -/
theorem init_success (h : Host σ) (c : Consts) (eng : Engine τ) (rt : emacs_runtime)
    (w : World σ τ) (h1 : ¬ toSizeT rt.size < c.sizeof_emacs_runtime)
    (h2 : ¬ toSizeT (hostEnvSize h rt w) < c.sizeof_emacs_env) :
    ∃ w7 : World σ τ,
      emacs_module_init h c eng rt w = (0, doomgeneric_Create h c eng w7) ∧
      w7.symbols = (resolveAll h (hostEnv h rt w) symbolNames (h.get_environment rt w.host).2).1 ∧
      w7.env = hostEnv h rt w ∧
      w7.engine = w.engine ∧
      Event.intern (hostEnv h rt w) "doom-tick" ∈ w7.trace ∧
      Event.make_function (hostEnv h rt w) 0 0 ∈ w7.trace ∧
      ∃ f name fn, Event.funcall (hostEnv h rt w) f [name, fn] ∈ w7.trace := by
  unfold emacs_module_init
  rw [if_neg h1]
  refine ⟨_, if_neg h2, rfl, rfl, rfl, ?_, ?_, ?_⟩
  · show Event.intern (hostEnv h rt w) "doom-tick" ∈
      ((_ ++ [Event.intern (hostEnv h rt w) "doom-tick"]) ++
        [Event.make_function (hostEnv h rt w) 0 0]) ++ [Event.funcall (hostEnv h rt w) _ _]
    simp
  · show Event.make_function (hostEnv h rt w) 0 0 ∈
      ((_ ++ [Event.intern (hostEnv h rt w) "doom-tick"]) ++
        [Event.make_function (hostEnv h rt w) 0 0]) ++ [Event.funcall (hostEnv h rt w) _ _]
    simp
  · exact ⟨_, _, _, List.mem_append_right _ (List.mem_singleton_self _)⟩

theorem doomgeneric_Create_spec (h : Host σ) (c : Consts) (eng : Engine τ) (w : World σ τ) :
    (doomgeneric_Create h c eng w).symbols = w.symbols ∧
    (doomgeneric_Create h c eng w).env = w.env ∧
    ∃ new, (doomgeneric_Create h c eng w).trace
      = w.trace ++ Event.doomgeneric_Create w.env :: new := by
  have a := runProg_callback h c (eng.doomgeneric_Create w.engine)
    ({ w with trace := w.trace ++ [Event.doomgeneric_Create w.env] } : World σ τ)
  obtain ⟨new, ht, _⟩ := a.trace
  refine ⟨a.symbols, a.env, new, ?_⟩
  show (runProg h c (eng.doomgeneric_Create w.engine) _).trace = _
  rw [ht]
  simp

theorem init_code_cases (h : Host σ) (c : Consts) (eng : Engine τ) (rt : emacs_runtime)
    (w : World σ τ) :
    (emacs_module_init h c eng rt w).1 =
      if toSizeT rt.size < c.sizeof_emacs_runtime then 1
      else if toSizeT (hostEnvSize h rt w) < c.sizeof_emacs_env then 2 else 0 := by
  by_cases h1 : toSizeT rt.size < c.sizeof_emacs_runtime
  · rw [init_runtime_too_small h c eng rt w h1, if_pos h1]
  · by_cases h2 : toSizeT (hostEnvSize h rt w) < c.sizeof_emacs_env
    · rw [init_env_too_small h c eng rt w h1 h2, if_neg h1, if_pos h2]
    · obtain ⟨w7, he, _⟩ := init_success h c eng rt w h1 h2
      rw [he, if_neg h1, if_neg h2]

end InitFacts

section InitClaims

variable {σ τ : Type}

/-- C4 (counterexample): a runtime record whose size field is -1, smaller than the 24 bytes
expected, passes the first check (`(size_t)-1` is 2^64 - 1): initialisation does not return 1
but goes on and returns 0. -/
theorem C4_init_codes_counterexample :
    (({ size := -1 } : emacs_runtime).size < (demoConsts.sizeof_emacs_runtime : Int)) ∧
    (emacs_module_init demoHost demoConsts demoEngine { size := -1 }
      (World.initial (demoState 0 [] 0 512) 0 (fun i => i % 256) (fun _ => 0))).1 ≠ 1 ∧
    (emacs_module_init demoHost demoConsts demoEngine { size := -1 }
      (World.initial (demoState 0 [] 0 512) 0 (fun i => i % 256) (fun _ => 0))).1 = 0 := by
  decide

/-- C4 (amended): `emacs_module_init` returns 1 when the runtime record's size field,
converted to `size_t` as the code does, is smaller than the expected runtime structure size;
returns 2 when that check passes but the services record's size field, converted to `size_t`,
is smaller than the expected services structure size; and returns 0 exactly when both checks
pass. For size fields that are not negative the conversion changes nothing, so there the
comparison is the plain one. The failure codes 1 and 2 are nonzero and different. -/
theorem C4_init_codes_amended (h : Host σ) (c : Consts) (eng : Engine τ) (rt : emacs_runtime)
    (w : World σ τ) :
    (toSizeT rt.size < c.sizeof_emacs_runtime → (emacs_module_init h c eng rt w).1 = 1) ∧
    (¬ toSizeT rt.size < c.sizeof_emacs_runtime →
      toSizeT (hostEnvSize h rt w) < c.sizeof_emacs_env →
      (emacs_module_init h c eng rt w).1 = 2) ∧
    ((emacs_module_init h c eng rt w).1 = 0 ↔
      ¬ toSizeT rt.size < c.sizeof_emacs_runtime ∧
      ¬ toSizeT (hostEnvSize h rt w) < c.sizeof_emacs_env) ∧
    (0 ≤ rt.size → rt.size < c.sizeof_emacs_runtime →
      (emacs_module_init h c eng rt w).1 = 1) ∧
    (0 ≤ rt.size → ¬ rt.size < c.sizeof_emacs_runtime → rt.size < 9223372036854775808 →
      0 ≤ hostEnvSize h rt w → hostEnvSize h rt w < c.sizeof_emacs_env →
      (emacs_module_init h c eng rt w).1 = 2) ∧
    ((emacs_module_init h c eng rt w).1 = 0 ∨ (emacs_module_init h c eng rt w).1 = 1 ∨
      (emacs_module_init h c eng rt w).1 = 2) ∧
    (1 : Int) ≠ 0 ∧ (2 : Int) ≠ 0 ∧ (1 : Int) ≠ 2 := by
  rw [init_code_cases]
  unfold toSizeT
  generalize hostEnvSize h rt w = es
  refine ⟨?_, ?_, ?_, ?_, ?_, ?_, by decide, by decide, by decide⟩
  · intro h1; rw [if_pos h1]
  · intro h1 h2; rw [if_neg h1, if_pos h2]
  · split
    · omega
    · split <;> omega
  · intro h0 h1
    rw [if_pos (by omega)]
  · intro h0 h1 h2 h3 h4
    rw [if_neg (by omega), if_pos (by omega)]
  · split
    · omega
    · split <;> omega

/-- C4 (witness): a runtime record of 8 bytes where 24 are expected gives code 1. -/
theorem C4_init_codes_amended_witness :
    (emacs_module_init demoHost demoConsts demoEngine { size := 8 }
      (World.initial (demoState 0 [] 0 512) 0 (fun i => i % 256) (fun _ => 0))).1 = 1 :=
  (C4_init_codes_amended demoHost demoConsts demoEngine { size := 8 }
    (World.initial (demoState 0 [] 0 512) 0 (fun i => i % 256) (fun _ => 0))).2.2.2.1
    (by decide) (by decide)

/-- C4 (example): a services record of 256 bytes where 512 are expected gives code 2. -/
theorem C4_env_too_small_example :
    (emacs_module_init demoHost demoConsts demoEngine { size := 24 }
      (World.initial (demoState 0 [] 0 256) 0 (fun i => i % 256) (fun _ => 0))).1 = 2 := by
  decide

/-- C5: whenever `emacs_module_init` returns a nonzero code it has made no registration step:
the calls it added to the trace contain no `intern`, `make_global_ref`, `make_function`,
`funcall` (so no `defalias` of `doom-tick`) and no `doomgeneric_Create`; the symbol table and
the engine are untouched. -/
theorem C5_no_registration_on_failure (h : Host σ) (c : Consts) (eng : Engine τ)
    (rt : emacs_runtime) (w : World σ τ)
    (hfail : (emacs_module_init h c eng rt w).1 ≠ 0) :
    (∃ new, (emacs_module_init h c eng rt w).2.trace = w.trace ++ new ∧
      ∀ ev ∈ new, Event.isRegistration ev = false) ∧
    (emacs_module_init h c eng rt w).2.symbols = w.symbols ∧
    (emacs_module_init h c eng rt w).2.engine = w.engine ∧
    (emacs_module_init h c eng rt w).2.DG_ScreenBuffer = w.DG_ScreenBuffer ∧
    (emacs_module_init h c eng rt w).2.mem = w.mem := by
  by_cases h1 : toSizeT rt.size < c.sizeof_emacs_runtime
  · rw [init_runtime_too_small h c eng rt w h1]
    exact ⟨⟨[], by simp, by simp⟩, rfl, rfl, rfl, rfl⟩
  · by_cases h2 : toSizeT (hostEnvSize h rt w) < c.sizeof_emacs_env
    · rw [init_env_too_small h c eng rt w h1 h2]
      refine ⟨⟨[Event.get_environment], rfl, ?_⟩, rfl, rfl, rfl, rfl⟩
      intro ev hev
      rw [List.mem_singleton.mp hev]
      rfl
    · exfalso
      apply hfail
      rw [init_code_cases, if_neg h1, if_neg h2]

/-- C5 (witness): initialisation of the sample host with a services record of 256 bytes where
512 are expected fails after `get_environment` alone. -/
theorem C5_no_registration_on_failure_witness :
    (emacs_module_init demoHost demoConsts demoEngine { size := 24 }
      (World.initial (demoState 0 [] 0 256) 0 (fun i => i % 256) (fun _ => 0))).2.symbols
      = (World.initial (demoState 0 [] 0 256) (0 : Nat) (fun i => i % 256)
          (fun _ => 0)).symbols :=
  (C5_no_registration_on_failure demoHost demoConsts demoEngine { size := 24 }
    (World.initial (demoState 0 [] 0 256) 0 (fun i => i % 256) (fun _ => 0))
    (by decide)).2.1

/-- C5 (success side): when `emacs_module_init` returns 0 both size checks have passed and the
registration steps are in the trace: `doom-tick` interned, the function made with arities
0 and 0, a two-argument `funcall`, and `doomgeneric_Create`. -/
theorem C5_registration_on_success (h : Host σ) (c : Consts) (eng : Engine τ)
    (rt : emacs_runtime) (w : World σ τ)
    (hok : (emacs_module_init h c eng rt w).1 = 0) :
    ¬ toSizeT rt.size < c.sizeof_emacs_runtime ∧
    ¬ toSizeT (hostEnvSize h rt w) < c.sizeof_emacs_env ∧
    Event.intern (hostEnv h rt w) "doom-tick" ∈ (emacs_module_init h c eng rt w).2.trace ∧
    Event.make_function (hostEnv h rt w) 0 0 ∈ (emacs_module_init h c eng rt w).2.trace ∧
    (∃ f name fn,
      Event.funcall (hostEnv h rt w) f [name, fn] ∈ (emacs_module_init h c eng rt w).2.trace) ∧
    Event.doomgeneric_Create (hostEnv h rt w) ∈ (emacs_module_init h c eng rt w).2.trace := by
  rw [init_code_cases] at hok
  have h1 : ¬ toSizeT rt.size < c.sizeof_emacs_runtime := by
    intro hc; rw [if_pos hc] at hok; exact absurd hok (by decide)
  rw [if_neg h1] at hok
  have h2 : ¬ toSizeT (hostEnvSize h rt w) < c.sizeof_emacs_env := by
    intro hc; rw [if_pos hc] at hok; exact absurd hok (by decide)
  obtain ⟨w7, he, _, henv, _, m1, m2, f, name, fn, m3⟩ := init_success h c eng rt w h1 h2
  obtain ⟨_, _, new, ht⟩ := doomgeneric_Create_spec h c eng w7
  rw [he]
  show _ ∧ _ ∧ _ ∈ (doomgeneric_Create h c eng w7).trace ∧
    _ ∈ (doomgeneric_Create h c eng w7).trace ∧
    (∃ f name fn, _ ∈ (doomgeneric_Create h c eng w7).trace) ∧
    _ ∈ (doomgeneric_Create h c eng w7).trace
  rw [ht, henv]
  refine ⟨h1, h2, ?_, ?_, ⟨f, name, fn, ?_⟩, ?_⟩
  · exact List.mem_append_left _ m1
  · exact List.mem_append_left _ m2
  · exact List.mem_append_left _ m3
  · exact List.mem_append_right _ (List.mem_cons_self _ _)

/-- C5 (success side, witness): the sample host with matching sizes. -/
theorem C5_registration_on_success_witness :
    Event.doomgeneric_Create 4096 ∈
      (emacs_module_init demoHost demoConsts demoEngine { size := 24 }
        (World.initial (demoState 0 [] 0 512) 0 (fun i => i % 256) (fun _ => 0))).2.trace :=
  (C5_registration_on_success demoHost demoConsts demoEngine { size := 24 }
    (World.initial (demoState 0 [] 0 512) 0 (fun i => i % 256) (fun _ => 0))
    (by decide)).2.2.2.2.2

theorem AdapterOp_run_symbols (h : Host σ) (c : Consts) (eng : Engine τ) (op : AdapterOp)
    (w : World σ τ) : (op.run h c eng w).symbols = w.symbols := by
  cases op with
  | tick e => exact (tick_spec h c eng e w).2.2.1
  | DG_Init => rfl
  | DG_SetWindowTitle x => exact (DG_SetWindowTitle_callback h x w).symbols
  | DG_SleepMs x => exact (DG_SleepMs_callback h x w).symbols
  | DG_GetTicksMs => exact (DG_GetTicksMs_callback h w).symbols
  | DG_DrawFrame => exact (DG_DrawFrame_callback h c w).symbols
  | DG_GetKey => exact (DG_GetKey_callback h w).symbols

theorem AdapterOp_run_env (h : Host σ) (c : Consts) (eng : Engine τ) (op : AdapterOp)
    (w : World σ τ) :
    (op.run h c eng w).env = match op with
      | AdapterOp.tick e => e
      | _ => w.env := by
  cases op with
  | tick e => exact (tick_spec h c eng e w).2.1
  | DG_Init => rfl
  | DG_SetWindowTitle x => exact (DG_SetWindowTitle_callback h x w).env
  | DG_SleepMs x => exact (DG_SleepMs_callback h x w).env
  | DG_GetTicksMs => exact (DG_GetTicksMs_callback h w).env
  | DG_DrawFrame => exact (DG_DrawFrame_callback h c w).env
  | DG_GetKey => exact (DG_GetKey_callback h w).env

theorem runOps_symbols (h : Host σ) (c : Consts) (eng : Engine τ) (ops : List AdapterOp) :
    ∀ w : World σ τ, (runOps h c eng ops w).symbols = w.symbols := by
  induction ops with
  | nil => intro w; rfl
  | cons op ops ih =>
    intro w
    show (runOps h c eng ops (op.run h c eng w)).symbols = _
    rw [ih, AdapterOp_run_symbols]

/-- C10: after a successful `emacs_module_init` the six statics hold the global references
the host returned for `nil`, `accept-process-output`, `doom-ms`, `doom-canvas`, `doom-key`,
`doom-title`, resolved in that order; every later adapter operation, and every sequence of
them, leaves all six unchanged; of the adapter's state only the current handle is ever
modified, `tick` sets it to its argument and no other operation changes it. -/
theorem C10_symbol_table_invariant (h : Host σ) (c : Consts) (eng : Engine τ)
    (rt : emacs_runtime) (w : World σ τ)
    (hok : (emacs_module_init h c eng rt w).1 = 0) :
    (emacs_module_init h c eng rt w).2.symbols
      = (resolveAll h (hostEnv h rt w) symbolNames (h.get_environment rt w.host).2).1 ∧
    (∀ ops : List AdapterOp,
      (runOps h c eng ops (emacs_module_init h c eng rt w).2).symbols
        = (emacs_module_init h c eng rt w).2.symbols) ∧
    (∀ (op : AdapterOp) (w1 : World σ τ),
      (op.run h c eng w1).symbols = w1.symbols ∧
      (∀ e, op = AdapterOp.tick e → (op.run h c eng w1).env = e) ∧
      ((∀ e, op ≠ AdapterOp.tick e) → (op.run h c eng w1).env = w1.env)) := by
  rw [init_code_cases] at hok
  have h1 : ¬ toSizeT rt.size < c.sizeof_emacs_runtime := by
    intro hc; rw [if_pos hc] at hok; exact absurd hok (by decide)
  rw [if_neg h1] at hok
  have h2 : ¬ toSizeT (hostEnvSize h rt w) < c.sizeof_emacs_env := by
    intro hc; rw [if_pos hc] at hok; exact absurd hok (by decide)
  obtain ⟨w7, he, hs, _⟩ := init_success h c eng rt w h1 h2
  refine ⟨?_, ?_, ?_⟩
  · rw [he]
    show (doomgeneric_Create h c eng w7).symbols = _
    rw [(doomgeneric_Create_spec h c eng w7).1, hs]
  · intro ops
    exact runOps_symbols h c eng ops _
  · intro op w1
    refine ⟨AdapterOp_run_symbols h c eng op w1, ?_, ?_⟩
    · intro e hop
      rw [AdapterOp_run_env, hop]
    · intro hne
      rw [AdapterOp_run_env]
      cases op with
      | tick e => exact absurd rfl (hne e)
      | _ => rfl

/-- C10 (witness): the sample host after a successful initialisation, then a tick, a key poll
and a frame: the symbol table still holds the six global references. -/
theorem C10_symbol_table_invariant_witness :
    (runOps demoHost demoConsts demoEngine
      [AdapterOp.tick 4097, AdapterOp.DG_GetKey, AdapterOp.DG_DrawFrame]
      (emacs_module_init demoHost demoConsts demoEngine { size := 24 }
        (World.initial (demoState 0 [] 0 512) 0 (fun i => i % 256) (fun _ => 0))).2).symbols
      = (emacs_module_init demoHost demoConsts demoEngine { size := 24 }
        (World.initial (demoState 0 [] 0 512) 0 (fun i => i % 256) (fun _ => 0))).2.symbols :=
  (C10_symbol_table_invariant demoHost demoConsts demoEngine { size := 24 }
    (World.initial (demoState 0 [] 0 512) 0 (fun i => i % 256) (fun _ => 0))
    (by decide)).2.1 [AdapterOp.tick 4097, AdapterOp.DG_GetKey, AdapterOp.DG_DrawFrame]

/-- C10 (example): the symbol table of the sample host after initialisation. -/
theorem C10_symbols_example :
    (emacs_module_init demoHost demoConsts demoEngine { size := 24 }
      (World.initial (demoState 0 [] 0 512) 0 (fun i => i % 256) (fun _ => 0))).2.symbols
      = [101, 102, 103, 104, 105, 106] ∧
    (resolveAll demoHost 4096 symbolNames (demoState 0 [] 0 512)).1
      = [101, 102, 103, 104, 105, 106] := by
  decide

end InitClaims

section DrawFacts

variable {σ τ : Type}

/-- The world `DG_DrawFrame` leaves when the host reports the canvas as nil. -/
theorem DG_DrawFrame_nil (h : Host σ) (c : Consts) (w : World σ τ)
    (hnil : hostCanvasNotNil h w = false) :
    DG_DrawFrame h c w =
      (env_is_not_nil h (hostCanvas h w) (env_funcall h w.Qdoom_canvas [] w).2).2 := by
  have hnn : (env_is_not_nil h (env_funcall h w.Qdoom_canvas [] w).1
      (env_funcall h w.Qdoom_canvas [] w).2).1 = false := hnil
  unfold DG_DrawFrame
  simp only [hnn]
  rfl

/-- The world `DG_DrawFrame` leaves when the canvas is non-nil but has no pixel buffer. -/
theorem DG_DrawFrame_null (h : Host σ) (c : Consts) (w : World σ τ)
    (hnn : hostCanvasNotNil h w = true) (hp : hostCanvasPixel h w = 0) :
    DG_DrawFrame h c w =
      (env_canvas_pixel h (hostCanvas h w)
        (env_is_not_nil h (hostCanvas h w) (env_funcall h w.Qdoom_canvas [] w).2).2).2 := by
  have hnn1 : (env_is_not_nil h (env_funcall h w.Qdoom_canvas [] w).1
      (env_funcall h w.Qdoom_canvas [] w).2).1 = true := hnn
  have hp1 : (env_canvas_pixel h (env_funcall h w.Qdoom_canvas [] w).1
      (env_is_not_nil h (env_funcall h w.Qdoom_canvas [] w).1
        (env_funcall h w.Qdoom_canvas [] w).2).2).1 = 0 := hp
  unfold DG_DrawFrame
  simp only [hnn1, if_true, hp1]
  rfl

/-- The world `DG_DrawFrame` leaves when the host supplies a surface. -/
theorem DG_DrawFrame_surface (h : Host σ) (c : Consts) (w : World σ τ)
    (hnn : hostCanvasNotNil h w = true) (hp : hostCanvasPixel h w ≠ 0) :
    DG_DrawFrame h c w =
      env_canvas_refresh h (hostCanvas h w)
        { (env_canvas_pixel h (hostCanvas h w)
            (env_is_not_nil h (hostCanvas h w) (env_funcall h w.Qdoom_canvas [] w).2).2).2 with
          mem := memcpy (hostCanvasPixel h w) w.DG_ScreenBuffer
            (4 * c.DOOMGENERIC_RESX * c.DOOMGENERIC_RESY) w.mem } := by
  have hnn1 : (env_is_not_nil h (env_funcall h w.Qdoom_canvas [] w).1
      (env_funcall h w.Qdoom_canvas [] w).2).1 = true := hnn
  have hp1 : (env_canvas_pixel h (env_funcall h w.Qdoom_canvas [] w).1
      (env_is_not_nil h (env_funcall h w.Qdoom_canvas [] w).1
        (env_funcall h w.Qdoom_canvas [] w).2).2).1 ≠ 0 := hp
  unfold DG_DrawFrame
  simp only [hnn1, if_true, if_pos hp1]
  rfl

theorem refreshes_append (a b : List Event) :
    refreshes (a ++ b) = refreshes a ++ refreshes b := by
  simp [refreshes, List.filterMap_append]

/-- Without a surface `DG_DrawFrame` touches neither memory nor the frame buffer and adds no
`canvas_refresh` to the trace. -/
theorem DG_DrawFrame_no_surface (h : Host σ) (c : Consts) (w : World σ τ)
    (hno : hostCanvasNotNil h w = false ∨ hostCanvasPixel h w = 0) :
    (DG_DrawFrame h c w).mem = w.mem ∧
    (DG_DrawFrame h c w).DG_ScreenBuffer = w.DG_ScreenBuffer ∧
    refreshes (DG_DrawFrame h c w).trace = refreshes w.trace ∧
    ∃ new, (DG_DrawFrame h c w).trace = w.trace ++ new ∧
      ∀ ev ∈ new, Event.refreshed ev = none := by
  cases hnn : hostCanvasNotNil h w with
  | false =>
    rw [DG_DrawFrame_nil h c w hnn]
    refine ⟨rfl, rfl, ?_, [Event.funcall w.env w.Qdoom_canvas [],
      Event.is_not_nil w.env (hostCanvas h w)], ?_, ?_⟩
    · show refreshes ((w.trace ++ [_]) ++ [_]) = _
      simp [refreshes_append, refreshes, Event.refreshed]
    · show (w.trace ++ [_]) ++ [_] = _
      simp only [List.append_assoc, List.singleton_append]
      rfl
    · intro ev hev
      simp only [List.mem_cons, List.mem_singleton, List.not_mem_nil, or_false] at hev
      rcases hev with rfl | rfl <;> rfl
  | true =>
    have hp : hostCanvasPixel h w = 0 := by
      rcases hno with hf | hp
      · rw [hnn] at hf; exact Bool.noConfusion hf
      · exact hp
    rw [DG_DrawFrame_null h c w hnn hp]
    refine ⟨rfl, rfl, ?_, [Event.funcall w.env w.Qdoom_canvas [],
      Event.is_not_nil w.env (hostCanvas h w), Event.canvas_pixel w.env (hostCanvas h w)],
      ?_, ?_⟩
    · show refreshes (((w.trace ++ [_]) ++ [_]) ++ [_]) = _
      simp [refreshes_append, refreshes, Event.refreshed]
    · show ((w.trace ++ [_]) ++ [_]) ++ [_] = _
      simp only [List.append_assoc, List.singleton_append]
      rfl
    · intro ev hev
      simp only [List.mem_cons, List.mem_singleton, List.not_mem_nil, or_false] at hev
      rcases hev with rfl | rfl | rfl <;> rfl

end DrawFacts

section DrawClaims

variable {σ τ : Type}

/-- C6: when the host has no display surface (`doom-canvas` returns nil, or `canvas_pixel`
returns a null buffer) `DG_DrawFrame` writes no byte of memory, does not call
`canvas_refresh` and leaves `DG_ScreenBuffer` unchanged; a second call in the same situation
again changes none of these. -/
theorem C6_draw_without_surface (h : Host σ) (c : Consts) (w : World σ τ)
    (hno : hostCanvasNotNil h w = false ∨ hostCanvasPixel h w = 0) :
    ((DG_DrawFrame h c w).mem = w.mem ∧
      (DG_DrawFrame h c w).DG_ScreenBuffer = w.DG_ScreenBuffer ∧
      refreshes (DG_DrawFrame h c w).trace = refreshes w.trace ∧
      ∃ new, (DG_DrawFrame h c w).trace = w.trace ++ new ∧
        ∀ ev ∈ new, Event.refreshed ev = none) ∧
    ((hostCanvasNotNil h (DG_DrawFrame h c w) = false ∨
        hostCanvasPixel h (DG_DrawFrame h c w) = 0) →
      (DG_DrawFrame h c (DG_DrawFrame h c w)).mem = w.mem ∧
      (DG_DrawFrame h c (DG_DrawFrame h c w)).DG_ScreenBuffer = w.DG_ScreenBuffer ∧
      refreshes (DG_DrawFrame h c (DG_DrawFrame h c w)).trace = refreshes w.trace) := by
  have a := DG_DrawFrame_no_surface h c w hno
  refine ⟨a, ?_⟩
  intro hno2
  have b := DG_DrawFrame_no_surface h c (DG_DrawFrame h c w) hno2
  exact ⟨b.1.trans a.1, b.2.1.trans a.2.1, b.2.2.1.trans a.2.2.1⟩

/-- C6 (witness): the sample host without a window, two frames in a row. -/
theorem C6_draw_without_surface_witness :
    refreshes (DG_DrawFrame demoHost demoConsts
      (DG_DrawFrame demoHost demoConsts (demoWorld (demoState 0 [] 0 512)))).trace
      = refreshes (demoWorld (demoState 0 [] 0 512)).trace :=
  ((C6_draw_without_surface demoHost demoConsts (demoWorld (demoState 0 [] 0 512))
    (by decide)).2 (by decide)).2.2

/-- C7: when the host supplies a surface (`doom-canvas` returns non-nil and `canvas_pixel` a
non-null buffer at address `p`) `DG_DrawFrame` makes the first
`DOOMGENERIC_RESX * DOOMGENERIC_RESY * 4` bytes at `p` equal, byte for byte, to
`DG_ScreenBuffer`, changes no byte outside that range, leaves `DG_ScreenBuffer` unchanged and
calls `canvas_refresh` exactly once, on that canvas, after the lookups. -/
theorem C7_draw_with_surface (h : Host σ) (c : Consts) (w : World σ τ)
    (hnn : hostCanvasNotNil h w = true) (hp : hostCanvasPixel h w ≠ 0) :
    (∀ i, i < c.DOOMGENERIC_RESX * c.DOOMGENERIC_RESY * 4 →
      (DG_DrawFrame h c w).mem (hostCanvasPixel h w + i) = w.DG_ScreenBuffer i) ∧
    (∀ a, a < hostCanvasPixel h w ∨
        hostCanvasPixel h w + c.DOOMGENERIC_RESX * c.DOOMGENERIC_RESY * 4 ≤ a →
      (DG_DrawFrame h c w).mem a = w.mem a) ∧
    (DG_DrawFrame h c w).DG_ScreenBuffer = w.DG_ScreenBuffer ∧
    refreshes (DG_DrawFrame h c w).trace = refreshes w.trace ++ [hostCanvas h w] ∧
    (DG_DrawFrame h c w).trace = w.trace ++
      [Event.funcall w.env w.Qdoom_canvas [], Event.is_not_nil w.env (hostCanvas h w),
       Event.canvas_pixel w.env (hostCanvas h w), Event.canvas_refresh w.env (hostCanvas h w)] := by
  rw [DG_DrawFrame_surface h c w hnn hp]
  have hn : 4 * c.DOOMGENERIC_RESX * c.DOOMGENERIC_RESY
      = c.DOOMGENERIC_RESX * c.DOOMGENERIC_RESY * 4 := by ring
  refine ⟨?_, ?_, rfl, ?_, ?_⟩
  · intro i hi
    show memcpy (hostCanvasPixel h w) w.DG_ScreenBuffer _ w.mem (hostCanvasPixel h w + i) = _
    unfold memcpy
    rw [hn, if_pos ⟨Nat.le_add_right _ _, by omega⟩, Nat.add_sub_cancel_left]
  · intro a ha
    show memcpy (hostCanvasPixel h w) w.DG_ScreenBuffer _ w.mem a = _
    unfold memcpy
    rw [hn, if_neg (by omega)]
  · show refreshes ((((w.trace ++ [_]) ++ [_]) ++ [_]) ++ [Event.canvas_refresh _ _]) = _
    simp [refreshes_append, refreshes, Event.refreshed]
  · show (((w.trace ++ [_]) ++ [_]) ++ [_]) ++ [_] = _
    simp only [List.append_assoc, List.singleton_append]
    rfl

/-- C7 (witness): the sample host with its canvas at address 65536 and the 640 x 400 frame:
byte 1000 of the surface receives byte 1000 of the frame buffer. -/
theorem C7_draw_with_surface_witness :
    (DG_DrawFrame demoHost demoConsts (demoWorld (demoState 0 [] 65536 512))).mem
      (hostCanvasPixel demoHost (demoWorld (demoState 0 [] 65536 512)) + 1000)
      = (demoWorld (demoState 0 [] 65536 512)).DG_ScreenBuffer 1000 :=
  (C7_draw_with_surface demoHost demoConsts (demoWorld (demoState 0 [] 65536 512))
    (by decide) (by decide)).1 1000 (by decide)

/-- C7 (example): on the sample host the last copied byte is at offset 1023999, the byte after
it keeps its value, and the single refresh is on canvas 300. -/
theorem C7_draw_example :
    (DG_DrawFrame demoHost demoConsts (demoWorld (demoState 0 [] 65536 512))).mem
      (65536 + 1023999) = 1023999 % 256 ∧
    (DG_DrawFrame demoHost demoConsts (demoWorld (demoState 0 [] 65536 512))).mem
      (65536 + 1024000) = 0 ∧
    refreshes (DG_DrawFrame demoHost demoConsts
      (demoWorld (demoState 0 [] 65536 512))).trace = [300] := by
  decide

end DrawClaims

end DoomEmacs
